import Mathlib

/-!
# Verification of the pulse-width mapper and the frame streaming loop

Shallow embedding of the computational fragments of the repository:

* `motorControl.h` (projects `240424-233222-denky32` and `240424-233542-denky32`):
  the pulse-width mapper `moveMotorDegrees` / `moveMotor`, built from the Arduino
  `map` function (truncating integer linear interpolation) followed by a
  single-precision float conversion to PWM timer ticks.
* `ESP32_CAM_OTA_basic/src/main.cpp` and `ESP32_cam_pio/src/main.cpp`:
  the two `stream_handler` frame streaming loops, embedded as step functions over
  an explicit environment (camera acquisition results, JPEG-encoder results,
  HTTP chunk-write results) producing a trace of observable events.
-/

namespace Spec2Proof

/-! ## Pulse-width mapper (motorControl.h)

`#define MIN_PULSE_WIDTH 600`, `#define MAX_PULSE_WIDTH 2200`, `#define FREQUENCY 50`.
-/

def MIN_PULSE_WIDTH : ℤ := 600
def MAX_PULSE_WIDTH : ℤ := 2200
def FREQUENCY : ℤ := 50

/-- The Arduino core `map` function used by `moveMotorDegrees` / `moveMotor`:
`(x - in_min) * (out_max - out_min) / (in_max - in_min) + out_min` over C `long`
arithmetic.  C integer division truncates toward zero, which is `Int.tdiv`.
`map` performs no clamping (the Arduino documentation notes that it "does not
constrain values to within the range"). -/
def arduinoMap (x in_lo in_hi out_lo out_hi : ℤ) : ℤ :=
  Int.tdiv ((x - in_lo) * (out_hi - out_lo)) (in_hi - in_lo) + out_lo

/-- `pulse_wide` of `moveMotorDegrees`:
`map(controlIn, 0, 180, MIN_PULSE_WIDTH, MAX_PULSE_WIDTH)`. -/
def pulseWideDegrees (controlIn : ℤ) : ℤ :=
  arduinoMap controlIn 0 180 MIN_PULSE_WIDTH MAX_PULSE_WIDTH

/-- `pulse_wide` of `moveMotor` (applied to `potVal = analogRead(controlIn)`):
`map(potVal, 0, 1023, MIN_PULSE_WIDTH, MAX_PULSE_WIDTH)`. -/
def pulseWidePot (potVal : ℤ) : ℤ :=
  arduinoMap potVal 0 1023 MIN_PULSE_WIDTH MAX_PULSE_WIDTH

/-! ### IEEE-754 single precision model

`pulse_width = int(float(pulse_wide) / 1000000 * FREQUENCY * 4096)` computes in
32-bit `float` (24-bit significand, round to nearest, ties to even).  We model a
positive float value exactly as a dyadic rational `m * 2 ^ t / 2 ^ 64` with
`m t : ℕ` (the exponent is biased by `64` so that the whole model lives in `ℕ`),
and implement the rounding of a positive rational `a / b` to a 24-bit
significand.  All magnitudes arising here stay far inside the normal range of
`float`, so exponent overflow/underflow need not be modelled. -/

/-- `⌊log2 n⌋` for `1 ≤ n < 2 ^ 256` (and `0` at `0`), by binary search on the
exponent, using only kernel-accelerated `Nat` operations. -/
def lg2 (n : ℕ) : ℕ :=
  let a7 := if 2 ^ 128 ≤ n then 128 else 0
  let n7 := n / 2 ^ a7
  let a6 := if 2 ^ 64 ≤ n7 then 64 else 0
  let n6 := n7 / 2 ^ a6
  let a5 := if 2 ^ 32 ≤ n6 then 32 else 0
  let n5 := n6 / 2 ^ a5
  let a4 := if 2 ^ 16 ≤ n5 then 16 else 0
  let n4 := n5 / 2 ^ a4
  let a3 := if 2 ^ 8 ≤ n4 then 8 else 0
  let n3 := n4 / 2 ^ a3
  let a2 := if 2 ^ 4 ≤ n3 then 4 else 0
  let n2 := n3 / 2 ^ a2
  let a1 := if 2 ^ 2 ≤ n2 then 2 else 0
  let n1 := n2 / 2 ^ a1
  let a0 := if 2 ≤ n1 then 1 else 0
  a7 + a6 + a5 + a4 + a3 + a2 + a1 + a0

/-- Round the positive rational `a / b` to a 24-bit significand, nearest, ties
to even: returns `(m, t)` with rounded value `m * 2 ^ t / 2 ^ 64` and
`2 ^ 23 ≤ m ≤ 2 ^ 24`.  Requires `1 ≤ a`, `1 ≤ b` and `b ≤ a * 2 ^ 40` (so the
biased exponent stays in `ℕ`): every value in this file is far above `2 ^ -40`.
The exponent `⌊log2 (a / b)⌋` is recovered, exactly, as
`lg2 ⌊a * 2 ^ 64 / b⌋ - 64`, and the significand is rounded from the exact
fraction `(a * 2 ^ 64) / (b * 2 ^ t)`. -/
def rnPos (a b : ℕ) : ℕ × ℕ :=
  let num := a * 2 ^ 64
  let t := lg2 (num / b) - 23
  let den := b * 2 ^ t
  let q := num / den
  let r := num % den
  let m := if 2 * r < den then q
           else if den < 2 * r then q + 1
           else if q % 2 = 0 then q else q + 1
  (m, t)

/-- `int(float(pw) / 1000000 * FREQUENCY * 4096)` of `moveMotor` /
`moveMotorDegrees`, with faithful `float` (binary32) semantics: the `int` is
rounded to `float`, divided by `1000000` (rounding), multiplied by `50`
(rounding), multiplied by `4096` (exact scaling by `2 ^ 12`), and the result is
truncated toward zero by the conversion back to `int`.  The sign is handled
outside the positive rounding model, as IEEE-754 rounding is symmetric. -/
def tickFloat (pw : ℤ) : ℤ :=
  if pw = 0 then 0
  else
    let a := pw.natAbs
    let f0 := rnPos a 1
    let f1 := rnPos (f0.1 * 2 ^ f0.2) (1000000 * 2 ^ 64)
    let f2 := rnPos (50 * f1.1 * 2 ^ f1.2) (2 ^ 64)
    let t : ℕ := f2.1 * 2 ^ (f2.2 + 12) / 2 ^ 64
    if pw < 0 then -(t : ℤ) else (t : ℤ)

/-- The spec's tick formula: `pulse_width_us / 1,000,000 * 50 * 4096` truncated
to an integer (truncation toward zero, as C `int` conversion does). -/
def tickSpec (pw : ℤ) : ℤ := Int.tdiv (pw * 50 * 4096) 1000000

/-- The full `moveMotorDegrees` mapping from `controlIn` to the `pulse_width`
tick count handed to `pwm.setPWM`. -/
def pulseWidthDegrees (controlIn : ℤ) : ℤ := tickFloat (pulseWideDegrees controlIn)

/-- The full `moveMotor` mapping from the potentiometer reading `potVal` to the
`pulse_width` tick count handed to `pwm.setPWM`. -/
def pulseWidthPot (potVal : ℤ) : ℤ := tickFloat (pulseWidePot potVal)

/-! ## Frame streaming loops (`stream_handler` in ESP32_CAM_OTA_basic and
ESP32_cam_pio)

Each handler is embedded as a step function over one loop iteration.  The
environment of an iteration records what the camera driver, the JPEG encoder
and the HTTP server return in that iteration (`esp_camera_fb_get`, `frame2jpg`,
`httpd_resp_send_chunk`); the step emits the iteration's observable events in
program order and the handler's result if the iteration returns or breaks.
`run` folds steps over a finite list of iteration environments: a `none` result
means the unbounded `while (true)` loop is still running. -/

/-- Pixel format of a camera frame buffer: `PIXFORMAT_JPEG` or any other. -/
inductive PixFormat
  | jpeg
  | other
deriving DecidableEq

/-- Bytes of a buffer. -/
abbrev Buf := List ℕ

/-- A `camera_fb_t` frame buffer: `width`, `format`, `len` and `buf`. -/
structure Frame where
  width : ℕ
  format : PixFormat
  len : ℕ
  buf : Buf
deriving DecidableEq

/-- Two-valued `esp_err_t`: `ESP_OK` or any failing code. -/
inductive EspErr
  | ok
  | fail
deriving DecidableEq

/-- Observable events of one handler execution, in program order:
camera-pool acquisitions (`esp_camera_fb_get`, with success flag), frame-buffer
releases (`esp_camera_fb_return`), `free` of a heap JPEG buffer, camera driver
deinit/reinit, JPEG re-encoding (`frame2jpg`, with its quality argument and
success flag), and the three kinds of HTTP chunk writes
(`httpd_resp_send_chunk`, with success flag).  A header write records the
`Content-Length` value printed into the part header; a payload write records
the buffer pointer (`none` = `NULL`) and the byte count sent. -/
inductive Ev
  | acquire (ok : Bool)
  | release
  | freeBuf
  | deinitCam
  | reinitCam (ok : Bool)
  | encodeJpeg (quality : ℕ) (ok : Bool)
  | writeBoundary (ok : Bool)
  | writeHeader (len : ℕ) (ok : Bool)
  | writePayload (buf : Option Buf) (len : ℕ) (ok : Bool)
deriving DecidableEq

namespace Basic

/-- `"multipart/x-mixed-replace; boundary=frame"` (`STREAM_CONTENT_TYPE`). -/
def STREAM_CONTENT_TYPE : String := "multipart/x-mixed-replace" ++ "; boundary=frame"

/-- `"\r\n--frame\r\n"` (`STREAM_BOUNDARY`). -/
def STREAM_BOUNDARY : String := "\r\n--frame\r\n"

/-- The part header rendered by `snprintf(part, 64, STREAM_PART, len)`. -/
def streamPart (len : ℕ) : String :=
  "Content-Type: image/jpeg" ++ ("\r\nContent-Length: " ++ (toString len ++ "\r\n\r\n"))

/-- Environment of one iteration of the OTA_basic streaming loop: the results
of the first and the retried `esp_camera_fb_get`, of `frame2jpg`
(`none` = failure, `some (jpg_len, jpg_buf)` = success), and of the three
`httpd_resp_send_chunk` calls (attempted in the order boundary, part header,
payload, short-circuiting on the first failure). -/
structure Env where
  fb1 : Option Frame
  fb2 : Option Frame
  enc : Option (ℕ × Buf)
  sBoundary : Bool
  sHeader : Bool
  sPayload : Bool
deriving DecidableEq

/-- The frame the iteration works on: the first `esp_camera_fb_get` result, or
the retried one. -/
def acquiredFrame (e : Env) : Option Frame :=
  match e.fb1 with
  | some f => some f
  | none => e.fb2

/-- The three chunk writes
`send(BOUNDARY) != OK || send(part) != OK || send(payload) != OK`,
short-circuiting on the first failure.  `n` is the length printed in the part
header and also the payload byte count (the source uses the same variable for
both); `pb` is the payload buffer. -/
def sends (n : ℕ) (pb : Option Buf) (e : Env) : List Ev × Bool :=
  if e.sBoundary = false then ([.writeBoundary false], false)
  else if e.sHeader = false then ([.writeBoundary true, .writeHeader n false], false)
  else if e.sPayload = false then
    ([.writeBoundary true, .writeHeader n true, .writePayload pb n false], false)
  else ([.writeBoundary true, .writeHeader n true, .writePayload pb n true], true)

/-- The body of one iteration once a frame `f` is acquired: re-encode and
release, or send directly and release, as in the source (lines 56–84). -/
def body (f : Frame) (e : Env) : List Ev × Option EspErr :=
  if f.format ≠ .jpeg then
    match e.enc with
    | none => ([.encodeJpeg 80 false, .release], some .fail)
    | some (l, b) =>
      let s := sends l (some b) e
      ([.encodeJpeg 80 true, .release] ++ s.1 ++ [.freeBuf],
       if s.2 then none else some .fail)
  else
    let s := sends f.len (some f.buf) e
    (s.1 ++ [.release], if s.2 then none else some .fail)

/-- One iteration of the OTA_basic streaming loop: acquire (retrying once on
failure, returning `ESP_FAIL` if the retry also fails), then the body. -/
def step (e : Env) : List Ev × Option EspErr :=
  match e.fb1 with
  | some f =>
    let r := body f e
    (.acquire true :: r.1, r.2)
  | none =>
    match e.fb2 with
    | none => ([.acquire false, .acquire false], some .fail)
    | some f =>
      let r := body f e
      (.acquire false :: .acquire true :: r.1, r.2)

/-- The `while (true)` loop over a finite list of iteration environments.
`none` means the loop is still running after consuming the list. -/
def run : List Env → List Ev × Option EspErr
  | [] => ([], none)
  | e :: es =>
    match step e with
    | (evs, some r) => (evs, some r)
    | (evs, none) =>
      let rest := run es
      (evs ++ rest.1, rest.2)

/-- The whole handler: `httpd_resp_set_type` first (returning its error if it
fails), then the streaming loop. -/
def handler (setTypeOk : Bool) (envs : List Env) : List Ev × Option EspErr :=
  if setTypeOk then run envs else ([], some .fail)

end Basic

namespace Pio

/-- `PART_BOUNDARY`. -/
def PART_BOUNDARY : String := "123456789000000000000987654321"

/-- `_STREAM_CONTENT_TYPE = "multipart/x-mixed-replace;boundary=" PART_BOUNDARY`. -/
def STREAM_CONTENT_TYPE : String :=
  "multipart/x-mixed-replace" ++ (";boundary=" ++ PART_BOUNDARY)

/-- `_STREAM_BOUNDARY = "\r\n--" PART_BOUNDARY "\r\n"`. -/
def STREAM_BOUNDARY : String := "\r\n--" ++ (PART_BOUNDARY ++ "\r\n")

/-- The part header rendered by `snprintf((char *)part_buf, 64, _STREAM_PART, len)`. -/
def streamPart (len : ℕ) : String :=
  "Content-Type: image/jpeg" ++ ("\r\nContent-Length: " ++ (toString len ++ "\r\n\r\n"))

/-- The `_jpg_buf_len` / `_jpg_buf` locals of the pio `stream_handler`, which
persist across loop iterations (`size_t _jpg_buf_len = 0; uint8_t *_jpg_buf =
NULL;`). -/
structure St where
  jpgLen : ℕ
  jpgBuf : Option Buf
deriving DecidableEq

/-- Initial buffer state: `_jpg_buf_len = 0`, `_jpg_buf = NULL`. -/
def st0 : St := ⟨0, none⟩

/-- Environment of one iteration of the pio streaming loop: the result of
`esp_camera_fb_get`, of the `esp_camera_init` retried after a failed
acquisition, of `frame2jpg`, and of the three `httpd_resp_send_chunk` calls
(attempted in the order part header, payload, boundary, each guarded by
`res == ESP_OK`). -/
structure Env where
  fb : Option Frame
  reinitOk : Bool
  enc : Option (ℕ × Buf)
  sHeader : Bool
  sPayload : Bool
  sBoundary : Bool
deriving DecidableEq

/-- One iteration of the pio streaming loop (source lines 93–157): acquisition
phase (with camera deinit/reinit on failure), the `width > 400` / format
dispatch, the three guarded chunk writes, the cleanup of `fb` / `_jpg_buf`,
and the `res != ESP_OK` loop exit. -/
def step (st : St) (e : Env) : List Ev × St × Option EspErr :=
  let acq : List Ev × Option Frame × St × EspErr :=
    match e.fb with
    | none => ([.acquire false, .deinitCam, .reinitCam e.reinitOk], none, st, .fail)
    | some f =>
      if 400 < f.width then
        if f.format ≠ .jpeg then
          match e.enc with
          | some (l, b) => ([.acquire true, .encodeJpeg 80 true, .release], none, ⟨l, some b⟩, .ok)
          | none => ([.acquire true, .encodeJpeg 80 false, .release], none, st, .fail)
        else ([.acquire true], some f, ⟨f.len, some f.buf⟩, .ok)
      else ([.acquire true], some f, st, .ok)
  let st1 := acq.2.2.1
  let wr : List Ev × EspErr :=
    match acq.2.2.2 with
    | .fail => ([], .fail)
    | .ok =>
      if e.sHeader = false then ([.writeHeader st1.jpgLen false], .fail)
      else if e.sPayload = false then
        ([.writeHeader st1.jpgLen true, .writePayload st1.jpgBuf st1.jpgLen false], .fail)
      else if e.sBoundary = false then
        ([.writeHeader st1.jpgLen true, .writePayload st1.jpgBuf st1.jpgLen true,
          .writeBoundary false], .fail)
      else ([.writeHeader st1.jpgLen true, .writePayload st1.jpgBuf st1.jpgLen true,
             .writeBoundary true], .ok)
  let cleanup : List Ev × St :=
    match acq.2.1 with
    | some _ => ([.release], ⟨st1.jpgLen, none⟩)
    | none =>
      match st1.jpgBuf with
      | some _ => ([.freeBuf], ⟨st1.jpgLen, none⟩)
      | none => ([], st1)
  (acq.1 ++ wr.1 ++ cleanup.1, cleanup.2,
   if wr.2 = .ok then none else some .fail)

/-- The `while (true)` loop over a finite list of iteration environments,
threading the persistent `_jpg_buf_len` / `_jpg_buf` state. -/
def run (st : St) : List Env → List Ev × Option EspErr
  | [] => ([], none)
  | e :: es =>
    match step st e with
    | (evs, _, some r) => (evs, some r)
    | (evs, st2, none) =>
      let rest := run st2 es
      (evs ++ rest.1, rest.2)

/-- The whole handler: `httpd_resp_set_type` first (returning its error if it
fails), then the streaming loop from the initial buffer state. -/
def handler (setTypeOk : Bool) (envs : List Env) : List Ev × Option EspErr :=
  if setTypeOk then run st0 envs else ([], some .fail)

end Pio

/-! ## Trace predicates -/

/-- Is the event an HTTP chunk write? -/
def isWrite : Ev → Bool
  | .writeBoundary _ => true
  | .writeHeader _ _ => true
  | .writePayload _ _ _ => true
  | _ => false

/-- Is the event a failed HTTP chunk write? -/
def isFailedWrite : Ev → Bool
  | .writeBoundary false => true
  | .writeHeader _ false => true
  | .writePayload _ _ false => true
  | _ => false

/-- Is the event an `esp_camera_fb_get` attempt (successful or not)? -/
def isAcquireTry : Ev → Bool
  | .acquire _ => true
  | _ => false

/-- Is the event a `frame2jpg` call? -/
def isEncode : Ev → Bool
  | .encodeJpeg _ _ => true
  | _ => false

/-- No HTTP chunk write occurs anywhere after a failed one. -/
def stopsAfterFailedWrite : List Ev → Bool
  | [] => true
  | e :: rest =>
    (!isFailedWrite e || rest.all (fun x => !isWrite x)) && stopsAfterFailedWrite rest

/-- Does the trace contain a failed HTTP chunk write? -/
def hasFailedWrite (evs : List Ev) : Bool := evs.any isFailedWrite

/-- One event's effect on the number of currently held frame buffers.  `none`
reports a violation: acquiring while already holding a frame, or releasing
without holding one. -/
def heldStep : Option ℕ → Ev → Option ℕ
  | none, _ => none
  | some k, .acquire true => if k = 0 then some 1 else none
  | some k, .release => if k = 1 then some 0 else none
  | some k, _ => some k

/-- Frame-pool discipline: thread the number of currently held frame buffers
through the trace.  `runHeld 0 evs = some 0` says acquisitions and releases
alternate strictly and balance out: every successfully acquired frame buffer is
released before the next acquisition and before the trace ends. -/
def runHeld (k : ℕ) (evs : List Ev) : Option ℕ := evs.foldl heldStep (some k)

/-- The claim's multipart framing, on the write-only projection of a trace:
each payload is immediately preceded by a part header carrying the same length,
itself immediately preceded by a boundary marker; a trailing truncated group
(from a mid-group write failure ending the connection) is allowed. -/
def framedB : List Ev → Bool
  | [] => true
  | .writeBoundary _ :: rest =>
    match rest with
    | [] => true
    | .writeHeader n _ :: rest2 =>
      match rest2 with
      | [] => true
      | .writePayload _ m _ :: rest3 => n == m && framedB rest3
      | _ => false
    | _ => false
  | _ => false

/-- The framing the pio handler actually produces on the write-only projection:
groups of part header, payload with the same length, then a trailing boundary
marker; a trailing truncated group is allowed.  In particular the first payload
is not preceded by any boundary marker. -/
def framedP : List Ev → Bool
  | [] => true
  | .writeHeader n _ :: rest =>
    match rest with
    | [] => true
    | .writePayload _ m _ :: rest2 =>
      n == m &&
      (match rest2 with
       | [] => true
       | .writeBoundary _ :: rest3 => framedP rest3
       | _ => false)
    | _ => false
  | _ => false

set_option maxRecDepth 1000000

lemma pulseWideDegrees_natCast (x : ℕ) :
    pulseWideDegrees (x : ℤ) = ((x * 1600 / 180 + 600 : ℕ) : ℤ) := by
  simp only [pulseWideDegrees, arduinoMap, MIN_PULSE_WIDTH, MAX_PULSE_WIDTH]
  push_cast [← Int.ofNat_tdiv]
  norm_num
  rw [Int.tdiv_eq_ediv (by positivity) (by norm_num)]

lemma pulseWidePot_natCast (v : ℕ) :
    pulseWidePot (v : ℤ) = ((v * 1600 / 1023 + 600 : ℕ) : ℤ) := by
  simp only [pulseWidePot, arduinoMap, MIN_PULSE_WIDTH, MAX_PULSE_WIDTH]
  push_cast [← Int.ofNat_tdiv]
  norm_num
  rw [Int.tdiv_eq_ediv (by positivity) (by norm_num)]

lemma tickSpec_mono {a b : ℤ} (ha : 0 ≤ a) (hab : a ≤ b) : tickSpec a ≤ tickSpec b := by
  unfold tickSpec
  rw [Int.tdiv_eq_ediv (by nlinarith) (by norm_num),
      Int.tdiv_eq_ediv (by nlinarith) (by norm_num)]
  exact Int.ediv_le_ediv (by norm_num) (by nlinarith)

set_option maxHeartbeats 2000000

lemma tickFloat_eq_spec_deg : ∀ x : ℕ, x < 181 →
    tickFloat (pulseWideDegrees (x : ℤ)) = tickSpec (pulseWideDegrees (x : ℤ)) := by decide

lemma tickFloat_eq_spec_pot : ∀ v : ℕ, v < 1024 →
    tickFloat (pulseWidePot (v : ℤ)) = tickSpec (pulseWidePot (v : ℤ)) := by decide

lemma tickSpec_600 : tickSpec 600 = 122 := by decide

lemma tickSpec_2200 : tickSpec 2200 = 450 := by decide

lemma pw_deg_bounds (x : ℕ) (h : x ≤ 180) :
    600 ≤ pulseWideDegrees (x : ℤ) ∧ pulseWideDegrees (x : ℤ) ≤ 2200 := by
  rw [pulseWideDegrees_natCast]
  have hdiv : x * 1600 / 180 ≤ 1600 := by
    calc x * 1600 / 180 ≤ 180 * 1600 / 180 := Nat.div_le_div_right (by nlinarith)
    _ = 1600 := by norm_num
  constructor <;> [exact_mod_cast Nat.le_add_left 600 _; exact_mod_cast by omega]

lemma pw_pot_bounds (v : ℕ) (h : v ≤ 1023) :
    600 ≤ pulseWidePot (v : ℤ) ∧ pulseWidePot (v : ℤ) ≤ 2200 := by
  rw [pulseWidePot_natCast]
  have hdiv : v * 1600 / 1023 ≤ 1600 := by
    calc v * 1600 / 1023 ≤ 1023 * 1600 / 1023 := Nat.div_le_div_right (by nlinarith)
    _ = 1600 := by norm_num
  constructor <;> [exact_mod_cast Nat.le_add_left 600 _; exact_mod_cast by omega]

/-- C1.  Counterexample to the claimed clamping: `moveMotorDegrees` at
`controlIn = 360` computes `pulse_wide = 3800`, outside `[600, 2200]`: the
Arduino `map` performs no clamping and the sketch adds none. -/
theorem claim1_counterexample :
    pulseWideDegrees 360 = 3800 ∧ ¬ (pulseWideDegrees 360 ≤ MAX_PULSE_WIDTH) := by
  decide

/-- C1 (amended).  For inputs inside the declared domain (`0..180` for
`moveMotorDegrees`, `0..1023` for `moveMotor`) the pulse width equals
`600 + input * 1600 / input_max` with C truncating integer division, and lies
in `[600, 2200]`.  Inputs outside the domain are not clamped (see the
counterexample). -/
theorem claim1_amended :
    (∀ x : ℤ, 0 ≤ x → x ≤ 180 →
      pulseWideDegrees x = 600 + Int.tdiv (x * 1600) 180 ∧
      MIN_PULSE_WIDTH ≤ pulseWideDegrees x ∧ pulseWideDegrees x ≤ MAX_PULSE_WIDTH) ∧
    (∀ v : ℤ, 0 ≤ v → v ≤ 1023 →
      pulseWidePot v = 600 + Int.tdiv (v * 1600) 1023 ∧
      MIN_PULSE_WIDTH ≤ pulseWidePot v ∧ pulseWidePot v ≤ MAX_PULSE_WIDTH) := by
  constructor
  · intro x h0 h1
    refine ⟨?_, ?_⟩
    · simp only [pulseWideDegrees, arduinoMap, MIN_PULSE_WIDTH, MAX_PULSE_WIDTH]
      norm_num [add_comm]
    · obtain ⟨n, rfl⟩ : ∃ n : ℕ, x = (n : ℤ) := ⟨x.toNat, (Int.toNat_of_nonneg h0).symm⟩
      exact pw_deg_bounds n (by exact_mod_cast h1)
  · intro v h0 h1
    refine ⟨?_, ?_⟩
    · simp only [pulseWidePot, arduinoMap, MIN_PULSE_WIDTH, MAX_PULSE_WIDTH]
      norm_num [add_comm]
    · obtain ⟨n, rfl⟩ : ∃ n : ℕ, v = (n : ℤ) := ⟨v.toNat, (Int.toNat_of_nonneg h0).symm⟩
      exact pw_pot_bounds n (by exact_mod_cast h1)

theorem claim1_amended_witness :
    pulseWideDegrees 90 = 600 + Int.tdiv (90 * 1600) 180 ∧
    MIN_PULSE_WIDTH ≤ pulseWideDegrees 90 ∧ pulseWideDegrees 90 ≤ MAX_PULSE_WIDTH :=
  claim1_amended.1 90 (by decide) (by decide)

/-- C2.  Counterexample: at `moveMotorDegrees` input `4081` the pulse width is
`36875` µs, for which the float32 computation yields tick `7551` while
`36875 / 1,000,000 * 50 * 4096` truncated is `7552`. -/
theorem claim2_counterexample :
    pulseWideDegrees 4081 = 36875 ∧
    pulseWidthDegrees 4081 = 7551 ∧
    tickSpec (pulseWideDegrees 4081) = 7552 ∧
    pulseWidthDegrees 4081 ≠ tickSpec (pulseWideDegrees 4081) := by
  refine ⟨by decide, by decide, by decide, by decide⟩

/-- C2 (amended).  For every input inside the declared domain the tick count
equals `pulse_width_us / 1,000,000 * 50 * 4096` truncated to an integer; the
single-precision float arithmetic used by the code only deviates from the
exact truncation at pulse widths outside the servo range. -/
theorem claim2_amended :
    (∀ x : ℤ, 0 ≤ x → x ≤ 180 → pulseWidthDegrees x = tickSpec (pulseWideDegrees x)) ∧
    (∀ v : ℤ, 0 ≤ v → v ≤ 1023 → pulseWidthPot v = tickSpec (pulseWidePot v)) := by
  constructor
  · intro x h0 h1
    obtain ⟨n, rfl⟩ : ∃ n : ℕ, x = (n : ℤ) := ⟨x.toNat, (Int.toNat_of_nonneg h0).symm⟩
    exact tickFloat_eq_spec_deg n (by exact_mod_cast Int.lt_add_one_iff.mpr h1)
  · intro v h0 h1
    obtain ⟨n, rfl⟩ : ∃ n : ℕ, v = (n : ℤ) := ⟨v.toNat, (Int.toNat_of_nonneg h0).symm⟩
    exact tickFloat_eq_spec_pot n (by exact_mod_cast Int.lt_add_one_iff.mpr h1)

theorem claim2_amended_witness :
    pulseWidthDegrees 90 = tickSpec (pulseWideDegrees 90) :=
  claim2_amended.1 90 (by decide) (by decide)

/-- C8.  Both composed input-to-tick mappings are monotone non-decreasing on
their declared domains, and the domain scaling maps `0` to a 600 µs and the
domain maximum to a 2200 µs pulse width. -/
theorem claim8 :
    (∀ x y : ℤ, 0 ≤ x → x ≤ y → y ≤ 180 → pulseWidthDegrees x ≤ pulseWidthDegrees y) ∧
    (∀ v w : ℤ, 0 ≤ v → v ≤ w → w ≤ 1023 → pulseWidthPot v ≤ pulseWidthPot w) ∧
    pulseWideDegrees 0 = MIN_PULSE_WIDTH ∧ pulseWideDegrees 180 = MAX_PULSE_WIDTH ∧
    pulseWidePot 0 = MIN_PULSE_WIDTH ∧ pulseWidePot 1023 = MAX_PULSE_WIDTH := by
  refine ⟨?_, ?_, by decide, by decide, by decide, by decide⟩
  · intro x y h0 hxy hy
    obtain ⟨n, rfl⟩ : ∃ n : ℕ, x = (n : ℤ) := ⟨x.toNat, (Int.toNat_of_nonneg h0).symm⟩
    obtain ⟨m, rfl⟩ : ∃ m : ℕ, y = (m : ℤ) := ⟨y.toNat, (Int.toNat_of_nonneg (by omega)).symm⟩
    have hnm : n ≤ m := by exact_mod_cast hxy
    have hm : m ≤ 180 := by exact_mod_cast hy
    show tickFloat (pulseWideDegrees (n : ℤ)) ≤ tickFloat (pulseWideDegrees (m : ℤ))
    rw [tickFloat_eq_spec_deg n (by omega), tickFloat_eq_spec_deg m (by omega)]
    have h0pw : (0 : ℤ) ≤ pulseWideDegrees (n : ℤ) :=
      le_trans (by norm_num) (pw_deg_bounds n (by omega)).1
    apply tickSpec_mono h0pw
    rw [pulseWideDegrees_natCast, pulseWideDegrees_natCast]
    have hd : n * 1600 / 180 ≤ m * 1600 / 180 :=
      Nat.div_le_div_right (Nat.mul_le_mul_right 1600 hnm)
    exact_mod_cast by omega
  · intro v w h0 hvw hw
    obtain ⟨n, rfl⟩ : ∃ n : ℕ, v = (n : ℤ) := ⟨v.toNat, (Int.toNat_of_nonneg h0).symm⟩
    obtain ⟨m, rfl⟩ : ∃ m : ℕ, w = (m : ℤ) := ⟨w.toNat, (Int.toNat_of_nonneg (by omega)).symm⟩
    have hnm : n ≤ m := by exact_mod_cast hvw
    have hm : m ≤ 1023 := by exact_mod_cast hw
    show tickFloat (pulseWidePot (n : ℤ)) ≤ tickFloat (pulseWidePot (m : ℤ))
    rw [tickFloat_eq_spec_pot n (by omega), tickFloat_eq_spec_pot m (by omega)]
    have h0pw : (0 : ℤ) ≤ pulseWidePot (n : ℤ) :=
      le_trans (by norm_num) (pw_pot_bounds n (by omega)).1
    apply tickSpec_mono h0pw
    rw [pulseWidePot_natCast, pulseWidePot_natCast]
    have hd : n * 1600 / 1023 ≤ m * 1600 / 1023 :=
      Nat.div_le_div_right (Nat.mul_le_mul_right 1600 hnm)
    exact_mod_cast by omega

theorem claim8_witness :
    pulseWidthDegrees 30 ≤ pulseWidthDegrees 120 :=
  claim8.1 30 120 (by decide) (by decide) (by decide)

/-- C9.  For every input inside the declared domain the tick count handed to
`pwm.setPWM` lies in `[122, 450]`, strictly inside the 4096-tick period, and
fits a 32-bit `int`. -/
theorem claim9 :
    (∀ x : ℤ, 0 ≤ x → x ≤ 180 →
      122 ≤ pulseWidthDegrees x ∧ pulseWidthDegrees x ≤ 450 ∧
      pulseWidthDegrees x < 4096 ∧ pulseWidthDegrees x < 2 ^ 31) ∧
    (∀ v : ℤ, 0 ≤ v → v ≤ 1023 →
      122 ≤ pulseWidthPot v ∧ pulseWidthPot v ≤ 450 ∧
      pulseWidthPot v < 4096 ∧ pulseWidthPot v < 2 ^ 31) := by
  constructor
  · intro x h0 h1
    obtain ⟨n, rfl⟩ : ∃ n : ℕ, x = (n : ℤ) := ⟨x.toNat, (Int.toNat_of_nonneg h0).symm⟩
    have hn : n ≤ 180 := by exact_mod_cast h1
    have hb := pw_deg_bounds n hn
    have heq := tickFloat_eq_spec_deg n (by omega)
    have hlo : (122 : ℤ) ≤ tickSpec (pulseWideDegrees (n : ℤ)) := by
      calc (122 : ℤ) = tickSpec 600 := tickSpec_600.symm
        _ ≤ tickSpec (pulseWideDegrees (n : ℤ)) := tickSpec_mono (by norm_num) hb.1
    have hhi : tickSpec (pulseWideDegrees (n : ℤ)) ≤ 450 := by
      calc tickSpec (pulseWideDegrees (n : ℤ)) ≤ tickSpec 2200 :=
            tickSpec_mono (le_trans (by norm_num) hb.1) hb.2
        _ = 450 := tickSpec_2200
    simp only [pulseWidthDegrees]
    rw [heq]
    exact ⟨hlo, hhi, lt_of_le_of_lt hhi (by norm_num), lt_of_le_of_lt hhi (by norm_num)⟩
  · intro v h0 h1
    obtain ⟨n, rfl⟩ : ∃ n : ℕ, v = (n : ℤ) := ⟨v.toNat, (Int.toNat_of_nonneg h0).symm⟩
    have hn : n ≤ 1023 := by exact_mod_cast h1
    have hb := pw_pot_bounds n hn
    have heq := tickFloat_eq_spec_pot n (by omega)
    have hlo : (122 : ℤ) ≤ tickSpec (pulseWidePot (n : ℤ)) := by
      calc (122 : ℤ) = tickSpec 600 := tickSpec_600.symm
        _ ≤ tickSpec (pulseWidePot (n : ℤ)) := tickSpec_mono (by norm_num) hb.1
    have hhi : tickSpec (pulseWidePot (n : ℤ)) ≤ 450 := by
      calc tickSpec (pulseWidePot (n : ℤ)) ≤ tickSpec 2200 :=
            tickSpec_mono (le_trans (by norm_num) hb.1) hb.2
        _ = 450 := tickSpec_2200
    simp only [pulseWidthPot]
    rw [heq]
    exact ⟨hlo, hhi, lt_of_le_of_lt hhi (by norm_num), lt_of_le_of_lt hhi (by norm_num)⟩

theorem claim9_witness :
    122 ≤ pulseWidthPot 512 ∧ pulseWidthPot 512 ≤ 450 ∧
    pulseWidthPot 512 < 4096 ∧ pulseWidthPot 512 < 2 ^ 31 :=
  claim9.2 512 (by decide) (by decide)

/-! ## Streaming-loop lemmas -/

lemma heldStep_none (evs : List Ev) : evs.foldl heldStep none = none := by
  induction evs with
  | nil => rfl
  | cons e rest ih => simpa [heldStep] using ih

lemma runHeld_append (k : ℕ) (a b : List Ev) :
    runHeld k (a ++ b) = match runHeld k a with
      | some j => runHeld j b
      | none => none := by
  unfold runHeld
  rw [List.foldl_append]
  cases h : a.foldl heldStep (some k) with
  | none => simp [heldStep_none]
  | some j => rfl

lemma stops_append {a b : List Ev} (ha : a.all (fun x => !isFailedWrite x) = true)
    (hb : stopsAfterFailedWrite b = true) : stopsAfterFailedWrite (a ++ b) = true := by
  induction a with
  | nil => simpa
  | cons e rest ih =>
    simp only [List.all_cons, Bool.and_eq_true] at ha
    simp only [List.cons_append, stopsAfterFailedWrite, Bool.and_eq_true, Bool.or_eq_true]
    exact ⟨Or.inl ha.1, ih ha.2⟩

lemma hasFailedWrite_append_left {a b : List Ev}
    (ha : a.all (fun x => !isFailedWrite x) = true) :
    hasFailedWrite (a ++ b) = hasFailedWrite b := by
  induction a with
  | nil => rfl
  | cons e rest ih =>
    simp only [List.all_cons, Bool.and_eq_true] at ha
    simp only [List.cons_append, hasFailedWrite, List.any_cons] at ih ⊢
    rw [ih ha.2]
    cases hfe : isFailedWrite e
    · rfl
    · simp [hfe] at ha

namespace Basic

lemma body_stops (f : Frame) (e : Env) :
    stopsAfterFailedWrite (body f e).1 = true := by
  rcases f with ⟨w, fmt, l, bf⟩
  rcases e with ⟨fb1, fb2, enc, b1, b2, b3⟩
  cases fmt <;> rcases enc with _ | ⟨el, eb⟩ <;> cases b1 <;> cases b2 <;> cases b3 <;>
    simp [body, sends, stopsAfterFailedWrite, isFailedWrite, isWrite]

lemma body_clean (f : Frame) (e : Env) (h : (body f e).2 = none) :
    (body f e).1.all (fun x => !isFailedWrite x) = true := by
  rcases f with ⟨w, fmt, l, bf⟩
  rcases e with ⟨fb1, fb2, enc, b1, b2, b3⟩
  revert h
  cases fmt <;> rcases enc with _ | ⟨el, eb⟩ <;> cases b1 <;> cases b2 <;> cases b3 <;>
    simp [body, sends, isFailedWrite]

lemma body_res (f : Frame) (e : Env) :
    (body f e).2 = none ∨ (body f e).2 = some .fail := by
  rcases f with ⟨w, fmt, l, bf⟩
  rcases e with ⟨fb1, fb2, enc, b1, b2, b3⟩
  cases fmt <;> rcases enc with _ | ⟨el, eb⟩ <;> cases b1 <;> cases b2 <;> cases b3 <;>
    simp [body, sends]

lemma body_held (f : Frame) (e : Env) :
    (body f e).1.foldl heldStep (some 1) = some 0 := by
  rcases f with ⟨w, fmt, l, bf⟩
  rcases e with ⟨fb1, fb2, enc, b1, b2, b3⟩
  cases fmt <;> rcases enc with _ | ⟨el, eb⟩ <;> cases b1 <;> cases b2 <;> cases b3 <;>
    simp [body, sends, heldStep]

lemma body_framed (f : Frame) (e : Env) :
    framedB ((body f e).1.filter isWrite) = true := by
  rcases f with ⟨w, fmt, l, bf⟩
  rcases e with ⟨fb1, fb2, enc, b1, b2, b3⟩
  cases fmt <;> rcases enc with _ | ⟨el, eb⟩ <;> cases b1 <;> cases b2 <;> cases b3 <;>
    simp [body, sends, framedB, isWrite]

lemma body_framed_app (f : Frame) (e : Env) (h : (body f e).2 = none) (ws : List Ev)
    (hws : framedB ws = true) :
    framedB ((body f e).1.filter isWrite ++ ws) = true := by
  rcases f with ⟨w, fmt, l, bf⟩
  rcases e with ⟨fb1, fb2, enc, b1, b2, b3⟩
  revert h
  cases fmt <;> rcases enc with _ | ⟨el, eb⟩ <;> cases b1 <;> cases b2 <;> cases b3 <;>
    simp [body, sends, framedB, isWrite, hws]

lemma body_countAcquire (f : Frame) (e : Env) :
    (body f e).1.countP (fun x => isAcquireTry x) = 0 := by
  rcases f with ⟨w, fmt, l, bf⟩
  rcases e with ⟨fb1, fb2, enc, b1, b2, b3⟩
  cases fmt <;> rcases enc with _ | ⟨el, eb⟩ <;> cases b1 <;> cases b2 <;> cases b3 <;>
    simp [body, sends, isAcquireTry, List.countP_cons, List.countP_nil]

lemma body_encode (f : Frame) (e : Env) :
    (body f e).1.any isEncode = (f.format != PixFormat.jpeg) := by
  rcases f with ⟨w, fmt, l, bf⟩
  rcases e with ⟨fb1, fb2, enc, b1, b2, b3⟩
  cases fmt <;> rcases enc with _ | ⟨el, eb⟩ <;> cases b1 <;> cases b2 <;> cases b3 <;>
    simp [body, sends, isEncode]

lemma body_quality (f : Frame) (e : Env) {q : ℕ} {ok : Bool}
    (h : Ev.encodeJpeg q ok ∈ (body f e).1) : q = 80 := by
  rcases f with ⟨w, fmt, l, bf⟩
  rcases e with ⟨fb1, fb2, enc, b1, b2, b3⟩
  revert h
  cases fmt <;> rcases enc with _ | ⟨el, eb⟩ <;> cases b1 <;> cases b2 <;> cases b3 <;>
    simp [body, sends]
  all_goals (intros; simp_all)

lemma body_payload_jpeg (f : Frame) (e : Env) (hf : f.format = .jpeg)
    {pb : Option Buf} {n : ℕ} {ok : Bool}
    (h : Ev.writePayload pb n ok ∈ (body f e).1) : pb = some f.buf ∧ n = f.len := by
  rcases f with ⟨w, fmt, l, bf⟩
  rcases e with ⟨fb1, fb2, enc, b1, b2, b3⟩
  simp only at hf
  subst hf
  revert h
  rcases enc with _ | ⟨el, eb⟩ <;> cases b1 <;> cases b2 <;> cases b3 <;>
    simp [body, sends]
  all_goals (intros; simp_all)

lemma body_payload_other (f : Frame) (e : Env) (hf : f.format ≠ .jpeg)
    {pb : Option Buf} {n : ℕ} {ok : Bool}
    (h : Ev.writePayload pb n ok ∈ (body f e).1) :
    ∃ b, e.enc = some (n, b) ∧ pb = some b := by
  rcases f with ⟨w, fmt, l, bf⟩
  rcases e with ⟨fb1, fb2, enc, b1, b2, b3⟩
  simp only at hf
  cases fmt
  · exact absurd rfl hf
  · revert h
    rcases enc with _ | ⟨el, eb⟩ <;> cases b1 <;> cases b2 <;> cases b3 <;>
      simp [body, sends]
    all_goals (intros; refine ⟨eb, ⟨?_, rfl⟩, ?_⟩ <;> simp_all)

lemma step_stops (e : Env) : stopsAfterFailedWrite (step e).1 = true := by
  unfold step
  cases e.fb1 with
  | some f => simpa [stopsAfterFailedWrite, isFailedWrite] using body_stops f e
  | none =>
    cases e.fb2 with
    | none => rfl
    | some f => simpa [stopsAfterFailedWrite, isFailedWrite] using body_stops f e

lemma step_clean (e : Env) (h : (step e).2 = none) :
    (step e).1.all (fun x => !isFailedWrite x) = true := by
  revert h
  unfold step
  cases e.fb1 with
  | some f => intro h; simpa [isFailedWrite] using body_clean f e h
  | none =>
    cases e.fb2 with
    | none => intro h; simp at h
    | some f => intro h; simpa [isFailedWrite] using body_clean f e h

lemma step_res (e : Env) : (step e).2 = none ∨ (step e).2 = some .fail := by
  unfold step
  cases e.fb1 with
  | some f => exact body_res f e
  | none =>
    cases e.fb2 with
    | none => simp
    | some f => exact body_res f e

lemma step_held (e : Env) : runHeld 0 (step e).1 = some 0 := by
  unfold step runHeld
  cases e.fb1 with
  | some f => simpa [heldStep] using body_held f e
  | none =>
    cases e.fb2 with
    | none => rfl
    | some f => simpa [heldStep] using body_held f e

lemma step_framed (e : Env) : framedB ((step e).1.filter isWrite) = true := by
  unfold step
  cases e.fb1 with
  | some f => simpa [isWrite] using body_framed f e
  | none =>
    cases e.fb2 with
    | none => rfl
    | some f => simpa [isWrite] using body_framed f e

lemma step_framed_app (e : Env) (h : (step e).2 = none) (ws : List Ev)
    (hws : framedB ws = true) :
    framedB ((step e).1.filter isWrite ++ ws) = true := by
  revert h
  unfold step
  cases e.fb1 with
  | some f => intro h; simpa [isWrite] using body_framed_app f e h ws hws
  | none =>
    cases e.fb2 with
    | none => intro h; simp at h
    | some f => intro h; simpa [isWrite] using body_framed_app f e h ws hws

lemma run_stops (envs : List Env) : stopsAfterFailedWrite (run envs).1 = true := by
  induction envs with
  | nil => rfl
  | cons e es ih =>
    have hs := step_stops e
    have hc := step_clean e
    rcases hstep : step e with ⟨evs, r⟩
    rw [hstep] at hs hc
    cases r with
    | some r0 => simp [run, hstep, hs]
    | none =>
      simp only [run, hstep]
      exact stops_append (hc rfl) ih

lemma run_res (envs : List Env) : (run envs).2 = none ∨ (run envs).2 = some .fail := by
  induction envs with
  | nil => simp [run]
  | cons e es ih =>
    have hr := step_res e
    rcases hstep : step e with ⟨evs, r⟩
    rw [hstep] at hr
    cases r with
    | some r0 =>
      simp only [run, hstep]
      simpa using hr
    | none => simpa [run, hstep] using ih

lemma run_fail (envs : List Env) (h : hasFailedWrite (run envs).1 = true) :
    (run envs).2 = some .fail := by
  induction envs with
  | nil => simp [hasFailedWrite, run] at h
  | cons e es ih =>
    have hr := step_res e
    have hc := step_clean e
    rcases hstep : step e with ⟨evs, r⟩
    rw [hstep] at hr hc
    cases r with
    | some r0 =>
      simp only [run, hstep]
      simpa using hr
    | none =>
      rw [run, hstep] at h ⊢
      simp only at h ⊢
      rw [hasFailedWrite_append_left (hc rfl)] at h
      exact ih h

lemma run_held (envs : List Env) : runHeld 0 (run envs).1 = some 0 := by
  induction envs with
  | nil => rfl
  | cons e es ih =>
    have hh := step_held e
    rcases hstep : step e with ⟨evs, r⟩
    rw [hstep] at hh
    cases r with
    | some r0 => simpa [run, hstep] using hh
    | none =>
      simp only [run, hstep]
      rw [runHeld_append, hh]
      exact ih

lemma run_framed (envs : List Env) : framedB ((run envs).1.filter isWrite) = true := by
  induction envs with
  | nil => rfl
  | cons e es ih =>
    have hf := step_framed e
    have hfa := step_framed_app e
    rcases hstep : step e with ⟨evs, r⟩
    rw [hstep] at hf hfa
    cases r with
    | some r0 => simpa [run, hstep] using hf
    | none =>
      simp only [run, hstep]
      rw [List.filter_append]
      exact hfa rfl _ ih

lemma step_acq_retry (e : Env) (h : e.fb1 = none) :
    (step e).1.countP (fun x => isAcquireTry x) = 2 := by
  rcases e with ⟨fb1, fb2, enc, b1, b2, b3⟩
  simp only at h
  subst h
  cases fb2 with
  | none => simp [step, isAcquireTry, List.countP_cons, List.countP_nil]
  | some f =>
    simp only [step]
    rw [List.countP_cons, List.countP_cons, body_countAcquire]
    simp [isAcquireTry]

lemma step_acq_first (e : Env) (f : Frame) (h : e.fb1 = some f) :
    (step e).1.countP (fun x => isAcquireTry x) = 1 := by
  rcases e with ⟨fb1, fb2, enc, b1, b2, b3⟩
  simp only at h
  subst h
  simp only [step]
  rw [List.countP_cons, body_countAcquire]
  simp [isAcquireTry]

lemma run_acqfail (e : Env) (es : List Env) (h1 : e.fb1 = none) (h2 : e.fb2 = none) :
    run (e :: es) = ([.acquire false, .acquire false], some .fail) := by
  rcases e with ⟨fb1, fb2, enc, b1, b2, b3⟩
  simp only at h1 h2
  subst h1 h2
  simp [run, step]

lemma step_encode (e : Env) (f : Frame) (h : acquiredFrame e = some f) :
    (step e).1.any isEncode = (f.format != PixFormat.jpeg) := by
  rcases e with ⟨fb1, fb2, enc, b1, b2, b3⟩
  cases fb1 with
  | some f1 =>
    simp only [acquiredFrame, Option.some.injEq] at h
    subst h
    simpa [step, isEncode] using body_encode f1 ⟨some f1, fb2, enc, b1, b2, b3⟩
  | none =>
    cases fb2 with
    | none => simp [acquiredFrame] at h
    | some f2 =>
      simp only [acquiredFrame, Option.some.injEq] at h
      subst h
      simpa [step, isEncode] using body_encode f2 ⟨none, some f2, enc, b1, b2, b3⟩

lemma step_quality (e : Env) {q : ℕ} {ok : Bool}
    (h : Ev.encodeJpeg q ok ∈ (step e).1) : q = 80 := by
  rcases e with ⟨fb1, fb2, enc, b1, b2, b3⟩
  cases fb1 with
  | some f1 =>
    have h' : Ev.encodeJpeg q ok ∈ (body f1 ⟨some f1, fb2, enc, b1, b2, b3⟩).1 := by
      simpa [step] using h
    exact body_quality _ _ h'
  | none =>
    cases fb2 with
    | none => simp [step] at h
    | some f2 =>
      have h' : Ev.encodeJpeg q ok ∈ (body f2 ⟨none, some f2, enc, b1, b2, b3⟩).1 := by
        simpa [step] using h
      exact body_quality _ _ h'

lemma step_payload_jpeg (e : Env) (f : Frame) (h : acquiredFrame e = some f)
    (hf : f.format = .jpeg) {pb : Option Buf} {n : ℕ} {ok : Bool}
    (hm : Ev.writePayload pb n ok ∈ (step e).1) : pb = some f.buf ∧ n = f.len := by
  rcases e with ⟨fb1, fb2, enc, b1, b2, b3⟩
  cases fb1 with
  | some f1 =>
    simp only [acquiredFrame, Option.some.injEq] at h
    subst h
    have hm' : Ev.writePayload pb n ok ∈ (body f1 ⟨some f1, fb2, enc, b1, b2, b3⟩).1 := by
      simpa [step] using hm
    exact body_payload_jpeg _ _ hf hm'
  | none =>
    cases fb2 with
    | none => simp [acquiredFrame] at h
    | some f2 =>
      simp only [acquiredFrame, Option.some.injEq] at h
      subst h
      have hm' : Ev.writePayload pb n ok ∈ (body f2 ⟨none, some f2, enc, b1, b2, b3⟩).1 := by
        simpa [step] using hm
      exact body_payload_jpeg _ _ hf hm'

lemma step_payload_other (e : Env) (f : Frame) (h : acquiredFrame e = some f)
    (hf : f.format ≠ .jpeg) {pb : Option Buf} {n : ℕ} {ok : Bool}
    (hm : Ev.writePayload pb n ok ∈ (step e).1) :
    ∃ b, e.enc = some (n, b) ∧ pb = some b := by
  rcases e with ⟨fb1, fb2, enc, b1, b2, b3⟩
  cases fb1 with
  | some f1 =>
    simp only [acquiredFrame, Option.some.injEq] at h
    subst h
    have hm' : Ev.writePayload pb n ok ∈ (body f1 ⟨some f1, fb2, enc, b1, b2, b3⟩).1 := by
      simpa [step] using hm
    exact body_payload_other _ _ hf hm'
  | none =>
    cases fb2 with
    | none => simp [acquiredFrame] at h
    | some f2 =>
      simp only [acquiredFrame, Option.some.injEq] at h
      subst h
      have hm' : Ev.writePayload pb n ok ∈ (body f2 ⟨none, some f2, enc, b1, b2, b3⟩).1 := by
        simpa [step] using hm
      exact body_payload_other _ _ hf hm'

end Basic

namespace Pio

lemma stepP_stops (st : St) (e : Env) : stopsAfterFailedWrite (step st e).1 = true := by
  rcases st with ⟨jl, jb⟩
  rcases e with ⟨fb, rin, enc, s1, s2, s3⟩
  cases fb with
  | none =>
    rcases jb with _ | b <;>
      simp [step, stopsAfterFailedWrite, isFailedWrite, isWrite]
  | some f =>
    rcases f with ⟨w, fmt, l, bf⟩
    by_cases hw : 400 < w
    · cases fmt <;> rcases enc with _ | ⟨el, eb⟩ <;> cases s1 <;> cases s2 <;> cases s3 <;>
        rcases jb with _ | b <;>
        simp [step, hw, stopsAfterFailedWrite, isFailedWrite, isWrite]
    · cases s1 <;> cases s2 <;> cases s3 <;> rcases jb with _ | b <;>
        simp [step, hw, stopsAfterFailedWrite, isFailedWrite, isWrite]

lemma stepP_clean (st : St) (e : Env) (h : (step st e).2.2 = none) :
    (step st e).1.all (fun x => !isFailedWrite x) = true := by
  revert h
  rcases st with ⟨jl, jb⟩
  rcases e with ⟨fb, rin, enc, s1, s2, s3⟩
  cases fb with
  | none =>
    rcases jb with _ | b <;>
      simp [step, isFailedWrite]
  | some f =>
    rcases f with ⟨w, fmt, l, bf⟩
    by_cases hw : 400 < w
    · cases fmt <;> rcases enc with _ | ⟨el, eb⟩ <;> cases s1 <;> cases s2 <;> cases s3 <;>
        rcases jb with _ | b <;>
        simp [step, hw, step, isFailedWrite]
    · cases s1 <;> cases s2 <;> cases s3 <;> rcases jb with _ | b <;>
        simp [step, hw, step, isFailedWrite]

lemma stepP_res (st : St) (e : Env) :
    (step st e).2.2 = none ∨ (step st e).2.2 = some .fail := by
  rcases st with ⟨jl, jb⟩
  rcases e with ⟨fb, rin, enc, s1, s2, s3⟩
  cases fb with
  | none =>
    rcases jb with _ | b <;>
      simp [step]
  | some f =>
    rcases f with ⟨w, fmt, l, bf⟩
    by_cases hw : 400 < w
    · cases fmt <;> rcases enc with _ | ⟨el, eb⟩ <;> cases s1 <;> cases s2 <;> cases s3 <;>
        rcases jb with _ | b <;>
        simp [step, hw, step]
    · cases s1 <;> cases s2 <;> cases s3 <;> rcases jb with _ | b <;>
        simp [step, hw, step]

lemma stepP_held (st : St) (e : Env) : runHeld 0 (step st e).1 = some 0 := by
  rcases st with ⟨jl, jb⟩
  rcases e with ⟨fb, rin, enc, s1, s2, s3⟩
  cases fb with
  | none =>
    rcases jb with _ | b <;>
      simp [step, runHeld, heldStep]
  | some f =>
    rcases f with ⟨w, fmt, l, bf⟩
    by_cases hw : 400 < w
    · cases fmt <;> rcases enc with _ | ⟨el, eb⟩ <;> cases s1 <;> cases s2 <;> cases s3 <;>
        rcases jb with _ | b <;>
        simp [step, hw, step, runHeld, heldStep]
    · cases s1 <;> cases s2 <;> cases s3 <;> rcases jb with _ | b <;>
        simp [step, hw, step, runHeld, heldStep]

lemma step_framedP (st : St) (e : Env) :
    framedP ((step st e).1.filter isWrite) = true := by
  rcases st with ⟨jl, jb⟩
  rcases e with ⟨fb, rin, enc, s1, s2, s3⟩
  cases fb with
  | none =>
    rcases jb with _ | b <;>
      simp [step, framedP, isWrite]
  | some f =>
    rcases f with ⟨w, fmt, l, bf⟩
    by_cases hw : 400 < w
    · cases fmt <;> rcases enc with _ | ⟨el, eb⟩ <;> cases s1 <;> cases s2 <;> cases s3 <;>
        rcases jb with _ | b <;>
        simp [step, hw, step, framedP, isWrite]
    · cases s1 <;> cases s2 <;> cases s3 <;> rcases jb with _ | b <;>
        simp [step, hw, step, framedP, isWrite]

lemma step_framedP_app (st : St) (e : Env) (h : (step st e).2.2 = none) (ws : List Ev)
    (hws : framedP ws = true) :
    framedP ((step st e).1.filter isWrite ++ ws) = true := by
  revert h
  rcases st with ⟨jl, jb⟩
  rcases e with ⟨fb, rin, enc, s1, s2, s3⟩
  cases fb with
  | none =>
    rcases jb with _ | b <;>
      simp [step, framedP, isWrite, hws]
  | some f =>
    rcases f with ⟨w, fmt, l, bf⟩
    by_cases hw : 400 < w
    · cases fmt <;> rcases enc with _ | ⟨el, eb⟩ <;> cases s1 <;> cases s2 <;> cases s3 <;>
        rcases jb with _ | b <;>
        simp [step, hw, step, framedP, isWrite, hws]
    · cases s1 <;> cases s2 <;> cases s3 <;> rcases jb with _ | b <;>
        simp [step, hw, step, framedP, isWrite, hws]

lemma step_jpgBuf_none (st : St) (e : Env) : ((step st e).2.1).jpgBuf = none := by
  rcases st with ⟨jl, jb⟩
  rcases e with ⟨fb, rin, enc, s1, s2, s3⟩
  cases fb with
  | none =>
    rcases jb with _ | b <;>
      simp [step]
  | some f =>
    rcases f with ⟨w, fmt, l, bf⟩
    by_cases hw : 400 < w
    · cases fmt <;> rcases enc with _ | ⟨el, eb⟩ <;> cases s1 <;> cases s2 <;> cases s3 <;>
        rcases jb with _ | b <;>
        simp [step, hw, step]
    · cases s1 <;> cases s2 <;> cases s3 <;> rcases jb with _ | b <;>
        simp [step, hw, step]

lemma runP_stops (st : St) (envs : List Env) :
    stopsAfterFailedWrite (run st envs).1 = true := by
  induction envs generalizing st with
  | nil => rfl
  | cons e es ih =>
    have hs := stepP_stops st e
    have hc := stepP_clean st e
    rcases hstep : step st e with ⟨evs, st2, r⟩
    rw [hstep] at hs hc
    cases r with
    | some r0 => simpa [run, hstep] using hs
    | none =>
      simp only [run, hstep]
      exact stops_append (hc rfl) (ih st2)

lemma runP_res (st : St) (envs : List Env) :
    (run st envs).2 = none ∨ (run st envs).2 = some .fail := by
  induction envs generalizing st with
  | nil => simp [run]
  | cons e es ih =>
    have hr := stepP_res st e
    rcases hstep : step st e with ⟨evs, st2, r⟩
    rw [hstep] at hr
    cases r with
    | some r0 =>
      simp only [run, hstep]
      simpa using hr
    | none => simpa [run, hstep] using ih st2

lemma runP_fail (st : St) (envs : List Env) (h : hasFailedWrite (run st envs).1 = true) :
    (run st envs).2 = some .fail := by
  induction envs generalizing st with
  | nil => simp [hasFailedWrite, run] at h
  | cons e es ih =>
    have hr := stepP_res st e
    have hc := stepP_clean st e
    rcases hstep : step st e with ⟨evs, st2, r⟩
    rw [hstep] at hr hc
    cases r with
    | some r0 =>
      simp only [run, hstep]
      simpa using hr
    | none =>
      rw [run, hstep] at h ⊢
      simp only at h ⊢
      rw [hasFailedWrite_append_left (hc rfl)] at h
      exact ih st2 h

lemma runP_held (st : St) (envs : List Env) : runHeld 0 (run st envs).1 = some 0 := by
  induction envs generalizing st with
  | nil => rfl
  | cons e es ih =>
    have hh := stepP_held st e
    rcases hstep : step st e with ⟨evs, st2, r⟩
    rw [hstep] at hh
    cases r with
    | some r0 => simpa [run, hstep] using hh
    | none =>
      simp only [run, hstep]
      rw [runHeld_append, hh]
      exact ih st2

lemma run_framedP (st : St) (envs : List Env) :
    framedP ((run st envs).1.filter isWrite) = true := by
  induction envs generalizing st with
  | nil => rfl
  | cons e es ih =>
    have hf := step_framedP st e
    have hfa := step_framedP_app st e
    rcases hstep : step st e with ⟨evs, st2, r⟩
    rw [hstep] at hf hfa
    cases r with
    | some r0 => simpa [run, hstep] using hf
    | none =>
      simp only [run, hstep]
      rw [List.filter_append]
      exact hfa rfl _ (ih st2)

lemma runP_acqfail (st : St) (e : Env) (es : List Env)
    (hst : st.jpgBuf = none) (h : e.fb = none) :
    run st (e :: es) =
      ([.acquire false, .deinitCam, .reinitCam e.reinitOk], some .fail) := by
  rcases st with ⟨jl, jb⟩
  rcases e with ⟨fb, rin, enc, s1, s2, s3⟩
  simp only at hst h
  subst hst h
  simp [run, step]

lemma stepP_encode (st : St) (e : Env) (f : Frame) (h : e.fb = some f)
    (hwide : 400 < f.width) :
    (step st e).1.any isEncode = (f.format != PixFormat.jpeg) := by
  rcases st with ⟨jl, jb⟩
  rcases e with ⟨fb, rin, enc, s1, s2, s3⟩
  simp only at h
  subst h
  rcases f with ⟨w, fmt, l, bf⟩
  simp only at hwide
  cases fmt <;> rcases enc with _ | ⟨el, eb⟩ <;> cases s1 <;> cases s2 <;> cases s3 <;>
    rcases jb with _ | b <;>
    simp [step, hwide, isEncode]

lemma stepP_quality (st : St) (e : Env) {q : ℕ} {ok : Bool}
    (h : Ev.encodeJpeg q ok ∈ (step st e).1) : q = 80 := by
  revert h
  rcases st with ⟨jl, jb⟩
  rcases e with ⟨fb, rin, enc, s1, s2, s3⟩
  cases fb with
  | none =>
    rcases jb with _ | b <;> simp [step]
  | some f =>
    rcases f with ⟨w, fmt, l, bf⟩
    by_cases hw : 400 < w
    · cases fmt <;> rcases enc with _ | ⟨el, eb⟩ <;> cases s1 <;> cases s2 <;> cases s3 <;>
        rcases jb with _ | b <;>
        simp [step, hw]
      all_goals (intros; simp_all)
    · cases s1 <;> cases s2 <;> cases s3 <;> rcases jb with _ | b <;>
        simp [step, hw]

lemma stepP_payload_jpeg (st : St) (e : Env) (f : Frame) (h : e.fb = some f)
    (hwide : 400 < f.width) (hf : f.format = .jpeg)
    {pb : Option Buf} {n : ℕ} {ok : Bool}
    (hm : Ev.writePayload pb n ok ∈ (step st e).1) : pb = some f.buf ∧ n = f.len := by
  revert hm
  rcases st with ⟨jl, jb⟩
  rcases e with ⟨fb, rin, enc, s1, s2, s3⟩
  simp only at h
  subst h
  rcases f with ⟨w, fmt, l, bf⟩
  simp only at hwide hf
  subst hf
  cases s1 <;> cases s2 <;> cases s3 <;> rcases jb with _ | b <;>
    simp [step, hwide]
  all_goals (intros; simp_all)

lemma stepP_payload_other (st : St) (e : Env) (f : Frame) (h : e.fb = some f)
    (hwide : 400 < f.width) (hf : f.format ≠ .jpeg)
    {pb : Option Buf} {n : ℕ} {ok : Bool}
    (hm : Ev.writePayload pb n ok ∈ (step st e).1) :
    ∃ b, e.enc = some (n, b) ∧ pb = some b := by
  revert hm
  rcases st with ⟨jl, jb⟩
  rcases e with ⟨fb, rin, enc, s1, s2, s3⟩
  simp only at h
  subst h
  rcases f with ⟨w, fmt, l, bf⟩
  simp only at hwide hf
  cases fmt
  · exact absurd rfl hf
  · rcases enc with _ | ⟨el, eb⟩ <;> cases s1 <;> cases s2 <;> cases s3 <;>
      rcases jb with _ | b <;>
      simp [step, hwide]
    all_goals (intros; refine ⟨eb, ⟨?_, rfl⟩, ?_⟩ <;> simp_all)

lemma step_smallWidth_eq (st : St) (e e' : Env) (f f' : Frame)
    (h : e.fb = some f) (h' : e'.fb = some f')
    (hw : f.width ≤ 400) (hw' : f'.width ≤ 400)
    (h1 : e.sHeader = e'.sHeader) (h2 : e.sPayload = e'.sPayload)
    (h3 : e.sBoundary = e'.sBoundary) :
    step st e = step st e' := by
  rcases st with ⟨jl, jb⟩
  rcases e with ⟨fb, rin, enc, s1, s2, s3⟩
  rcases e' with ⟨fb', rin', enc', s1', s2', s3'⟩
  simp only at h h' h1 h2 h3
  subst h h' h1 h2 h3
  rcases f with ⟨w, fmt, l, bf⟩
  rcases f' with ⟨w', fmt', l', bf'⟩
  simp only at hw hw'
  simp [step, Nat.not_lt.mpr hw, Nat.not_lt.mpr hw']

lemma step_smallWidth_events (st : St) (e : Env) (f : Frame)
    (h : e.fb = some f) (hw : f.width ≤ 400)
    (h1 : e.sHeader = true) (h2 : e.sPayload = true) (h3 : e.sBoundary = true) :
    step st e =
      ([.acquire true, .writeHeader st.jpgLen true, .writePayload st.jpgBuf st.jpgLen true,
        .writeBoundary true, .release], ⟨st.jpgLen, none⟩, none) := by
  rcases st with ⟨jl, jb⟩
  rcases e with ⟨fb, rin, enc, s1, s2, s3⟩
  simp only at h h1 h2 h3
  subst h h1 h2 h3
  rcases f with ⟨w, fmt, l, bf⟩
  simp only at hw
  simp [step, Nat.not_lt.mpr hw]

end Pio

/-! ## Concrete fixtures for counterexamples and witnesses -/

/-- A JPEG frame wider than 400 px. -/
def frameJpegBig : Frame := ⟨800, .jpeg, 3, [7, 8, 9]⟩

/-- A non-JPEG frame of width exactly 400 px. -/
def frameRgbSmall : Frame := ⟨400, .other, 5, [1, 2, 3, 4, 5]⟩

/-- Pio iteration: wide JPEG frame, every chunk write succeeds. -/
def envPioJpeg : Pio.Env := ⟨some frameJpegBig, true, none, true, true, true⟩

/-- Pio iteration: narrow non-JPEG frame, an encoder result available, every
chunk write succeeds. -/
def envPioSmall : Pio.Env := ⟨some frameRgbSmall, true, some (2, [9, 9]), true, true, true⟩

/-- Pio iteration: frame acquisition fails. -/
def envPioNoFb : Pio.Env := ⟨none, true, none, true, true, true⟩

/-- Basic iteration: wide JPEG frame, every chunk write succeeds. -/
def envBasicJpeg : Basic.Env := ⟨some frameJpegBig, none, none, true, true, true⟩

/-- Basic iteration: JPEG frame, the part-header write fails. -/
def envBasicHdrFail : Basic.Env := ⟨some frameJpegBig, none, none, true, false, true⟩

/-- Basic iteration: both frame acquisitions fail. -/
def envBasicNoFb : Basic.Env := ⟨none, none, none, true, true, true⟩

/-! ## Claims C3-C7 and C10 -/

/-- C3.  Counterexample: in the pio handler, a non-JPEG frame of width 400 is
not re-encoded (no `frame2jpg` call occurs in the iteration), because the
re-encode/send dispatch is guarded by `width > 400`, not by pixel format
alone. -/
theorem claim3_counterexample :
    envPioSmall.fb = some frameRgbSmall ∧ frameRgbSmall.format ≠ PixFormat.jpeg ∧
    (Pio.step Pio.st0 envPioSmall).1.any isEncode = false := by decide

/-- C3 (amended).  In the OTA_basic handler the claim holds as stated: a JPEG
frame's own bytes are sent unmodified, any other frame is re-encoded at
quality 80, and the decision depends only on the pixel format.  In the pio
handler the same holds only for frames wider than 400 px; narrower frames are
neither re-encoded nor sent (see C10). -/
theorem claim3_amended :
    (∀ e f, Basic.acquiredFrame e = some f →
      ((Basic.step e).1.any isEncode = (f.format != PixFormat.jpeg)) ∧
      (∀ q ok, Ev.encodeJpeg q ok ∈ (Basic.step e).1 → q = 80) ∧
      (f.format = .jpeg → ∀ pb n ok, Ev.writePayload pb n ok ∈ (Basic.step e).1 →
        pb = some f.buf ∧ n = f.len) ∧
      (f.format ≠ .jpeg → ∀ pb n ok, Ev.writePayload pb n ok ∈ (Basic.step e).1 →
        ∃ b, e.enc = some (n, b) ∧ pb = some b)) ∧
    (∀ st e f, e.fb = some f → 400 < f.width →
      ((Pio.step st e).1.any isEncode = (f.format != PixFormat.jpeg)) ∧
      (∀ q ok, Ev.encodeJpeg q ok ∈ (Pio.step st e).1 → q = 80) ∧
      (f.format = .jpeg → ∀ pb n ok, Ev.writePayload pb n ok ∈ (Pio.step st e).1 →
        pb = some f.buf ∧ n = f.len) ∧
      (f.format ≠ .jpeg → ∀ pb n ok, Ev.writePayload pb n ok ∈ (Pio.step st e).1 →
        ∃ b, e.enc = some (n, b) ∧ pb = some b)) := by
  constructor
  · intro e f h
    exact ⟨Basic.step_encode e f h, fun q ok hm => Basic.step_quality e hm,
      fun hf pb n ok hm => Basic.step_payload_jpeg e f h hf hm,
      fun hf pb n ok hm => Basic.step_payload_other e f h hf hm⟩
  · intro st e f h hw
    exact ⟨Pio.stepP_encode st e f h hw, fun q ok hm => Pio.stepP_quality st e hm,
      fun hf pb n ok hm => Pio.stepP_payload_jpeg st e f h hw hf hm,
      fun hf pb n ok hm => Pio.stepP_payload_other st e f h hw hf hm⟩

/-- Witness for C3 (amended) at a concrete JPEG iteration. -/
theorem claim3_amended_witness :
    (Basic.step envBasicJpeg).1.any isEncode = (frameJpegBig.format != PixFormat.jpeg) :=
  (claim3_amended.1 envBasicJpeg frameJpegBig rfl).1

/-- C4.  In both handlers, after a failed chunk write no further chunk write is
attempted, and a trace containing a failed write makes the handler return a
failing `esp_err_t`. -/
theorem claim4 :
    (∀ setOk envs, stopsAfterFailedWrite (Basic.handler setOk envs).1 = true ∧
      (hasFailedWrite (Basic.handler setOk envs).1 = true →
        (Basic.handler setOk envs).2 = some .fail)) ∧
    (∀ setOk envs, stopsAfterFailedWrite (Pio.handler setOk envs).1 = true ∧
      (hasFailedWrite (Pio.handler setOk envs).1 = true →
        (Pio.handler setOk envs).2 = some .fail)) := by
  constructor
  · intro setOk envs
    cases setOk
    · exact ⟨rfl, by simp [Basic.handler, hasFailedWrite]⟩
    · exact ⟨Basic.run_stops envs, fun h => Basic.run_fail envs h⟩
  · intro setOk envs
    cases setOk
    · exact ⟨rfl, by simp [Pio.handler, hasFailedWrite]⟩
    · exact ⟨Pio.runP_stops Pio.st0 envs, fun h => Pio.runP_fail Pio.st0 envs h⟩

/-- Witness for C4: a concrete connection whose part-header write fails
returns `ESP_FAIL`. -/
theorem claim4_witness :
    (Basic.handler true [envBasicHdrFail]).2 = some .fail :=
  (claim4.1 true [envBasicHdrFail]).2 (by decide)

/-- C5.  In both handlers, frame-buffer acquisitions and releases alternate
strictly and balance: every successfully acquired frame buffer is returned to
the pool before the next acquisition and before the handler returns. -/
theorem claim5 :
    (∀ setOk envs, runHeld 0 (Basic.handler setOk envs).1 = some 0) ∧
    (∀ setOk envs, runHeld 0 (Pio.handler setOk envs).1 = some 0) := by
  constructor
  · intro setOk envs
    cases setOk
    · rfl
    · exact Basic.run_held envs
  · intro setOk envs
    cases setOk
    · rfl
    · exact Pio.runP_held Pio.st0 envs

/-- C6.  Counterexample: in the pio handler a failed frame acquisition is not
retried - the trace holds exactly one acquisition attempt - and the handler
instead deinitialises and reinitialises the camera driver before terminating
with a failure. -/
theorem claim6_counterexample :
    (Pio.run Pio.st0 [envPioNoFb]).1.countP (fun x => isAcquireTry x) = 1 ∧
    Ev.deinitCam ∈ (Pio.run Pio.st0 [envPioNoFb]).1 ∧
    (Pio.run Pio.st0 [envPioNoFb]).2 = some .fail := by decide

/-- C6 (amended).  Only the OTA_basic handler retries a failed acquisition
exactly once and returns `ESP_FAIL` when the retry also fails; the pio handler
performs no retry: one acquisition attempt, then a camera deinit/reinit, then
termination with a failure result.  (`_jpg_buf = NULL` holds at the top of
every pio iteration, as the last conjunct shows.) -/
theorem claim6_amended :
    (∀ e es, e.fb1 = none → e.fb2 = none →
      Basic.run (e :: es) = ([.acquire false, .acquire false], some .fail)) ∧
    (∀ e, e.fb1 = none → (Basic.step e).1.countP (fun x => isAcquireTry x) = 2) ∧
    (∀ e f, e.fb1 = some f → (Basic.step e).1.countP (fun x => isAcquireTry x) = 1) ∧
    (∀ st e es, st.jpgBuf = none → e.fb = none →
      Pio.run st (e :: es) =
        ([.acquire false, .deinitCam, .reinitCam e.reinitOk], some .fail)) ∧
    (∀ st e, ((Pio.step st e).2.1).jpgBuf = none) :=
  ⟨fun e es h1 h2 => Basic.run_acqfail e es h1 h2,
   fun e h => Basic.step_acq_retry e h,
   fun e f h => Basic.step_acq_first e f h,
   fun st e es hst h => Pio.runP_acqfail st e es hst h,
   fun st e => Pio.step_jpgBuf_none st e⟩

/-- Witness for C6 (amended): the concrete double-acquisition failure. -/
theorem claim6_amended_witness :
    Basic.run [envBasicNoFb] = ([.acquire false, .acquire false], some .fail) :=
  claim6_amended.1 envBasicNoFb [] rfl rfl

/-- C7.  Counterexample: the pio handler writes the boundary marker after each
payload, so its first part is preceded by no boundary marker at all - the
write trace of a first successful JPEG iteration is header, payload,
boundary. -/
theorem claim7_counterexample :
    (Pio.handler true [envPioJpeg]).1.filter isWrite =
      [.writeHeader 3 true, .writePayload (some [7, 8, 9]) 3 true, .writeBoundary true] ∧
    framedB ((Pio.handler true [envPioJpeg]).1.filter isWrite) = false := by decide

/-- C7 (amended).  The OTA_basic handler frames every part as claimed:
boundary, then a header whose `Content-Length` equals the payload length, then
the payload.  The pio handler instead writes header, payload, then boundary,
so every part after the first is preceded by a boundary but the first is not;
its header lengths also always equal the payload lengths.  Both handlers use
content type `multipart/x-mixed-replace` and part headers carrying
`Content-Type: image/jpeg` and the length. -/
theorem claim7_amended :
    (∀ setOk envs, framedB ((Basic.handler setOk envs).1.filter isWrite) = true) ∧
    (∀ setOk envs, framedP ((Pio.handler setOk envs).1.filter isWrite) = true) ∧
    Basic.STREAM_CONTENT_TYPE = "multipart/x-mixed-replace" ++ "; boundary=frame" ∧
    Pio.STREAM_CONTENT_TYPE = "multipart/x-mixed-replace" ++ (";boundary=" ++ Pio.PART_BOUNDARY) ∧
    (∀ n, Basic.streamPart n =
      "Content-Type: image/jpeg" ++ ("\r\nContent-Length: " ++ (toString n ++ "\r\n\r\n"))) ∧
    (∀ n, Pio.streamPart n =
      "Content-Type: image/jpeg" ++ ("\r\nContent-Length: " ++ (toString n ++ "\r\n\r\n"))) := by
  refine ⟨?_, ?_, rfl, rfl, fun n => rfl, fun n => rfl⟩
  · intro setOk envs
    cases setOk
    · rfl
    · exact Basic.run_framed envs
  · intro setOk envs
    cases setOk
    · rfl
    · exact Pio.run_framedP Pio.st0 envs

/-- C10.  In the pio handler, a first frame of width at most 400 px still
produces a part: header `Content-Length: 0` and a zero-length payload from the
initial `NULL` JPEG buffer.  More generally, for frames of width at most
400 px the iteration's output is entirely determined by the leftover
`_jpg_buf_len` / `_jpg_buf` state, not by the current frame. -/
theorem claim10 :
    (∀ e f, e.fb = some f → f.width ≤ 400 → e.sHeader = true → e.sPayload = true →
      e.sBoundary = true →
      Pio.step Pio.st0 e =
        ([.acquire true, .writeHeader 0 true, .writePayload none 0 true,
          .writeBoundary true, .release], ⟨0, none⟩, none)) ∧
    (∀ st e e' f f', e.fb = some f → e'.fb = some f' → f.width ≤ 400 → f'.width ≤ 400 →
      e.sHeader = e'.sHeader → e.sPayload = e'.sPayload → e.sBoundary = e'.sBoundary →
      Pio.step st e = Pio.step st e') ∧
    (∀ st e f, e.fb = some f → f.width ≤ 400 → e.sHeader = true → e.sPayload = true →
      e.sBoundary = true →
      Pio.step st e =
        ([.acquire true, .writeHeader st.jpgLen true, .writePayload st.jpgBuf st.jpgLen true,
          .writeBoundary true, .release], ⟨st.jpgLen, none⟩, none)) := by
  refine ⟨fun e f h hw h1 h2 h3 => ?_,
    fun st e e' f f' h h' hw hw' h1 h2 h3 =>
      Pio.step_smallWidth_eq st e e' f f' h h' hw hw' h1 h2 h3,
    fun st e f h hw h1 h2 h3 => Pio.step_smallWidth_events st e f h hw h1 h2 h3⟩
  simpa [Pio.st0] using Pio.step_smallWidth_events Pio.st0 e f h hw h1 h2 h3

/-- Witness for C10 at a concrete narrow-frame iteration. -/
theorem claim10_witness :
    Pio.step Pio.st0 envPioSmall =
      ([.acquire true, .writeHeader 0 true, .writePayload none 0 true,
        .writeBoundary true, .release], ⟨0, none⟩, none) :=
  claim10.1 envPioSmall frameRgbSmall rfl (by decide) rfl rfl rfl

end Spec2Proof
